import Mathlib

/-
Verification of the groups API router (groups.list, groups.info, groups.update,
groups.delete, groups.memberships, groups.add_user, groups.remove_user, and the
provisioning PATCH groups/:id endpoint) against its specification.

The router is shallowly embedded: the persistent store is an explicit record of
rows, each HTTP handler is a function from the store and its validated inputs to
either an error paired with the store at the moment of the throw, or the updated
store paired with the response body.  Sequelize model instances carry explicit
dirty tracking (the pair of the current row and the row as fetched) so that the
source's calls to instance.changed() are modelled faithfully: association
add/remove calls create or delete join rows in the store and do not touch the
parent instance's own attributes, exactly as in the ORM.  The per-user tasks of
the provisioning PATCH run under Promise.all in the source; they are modelled
sequentially, which is observationally equivalent here because each task reads
and writes only the membership rows of its own (group, user) pair.

The policy engine, authentication, schema validation and the ORM are external
collaborators; they are represented by an abstract policy function, by already
validated inputs, by a validation wrapper modelled from the spec, and by list
level query functions translated from each call site.
-/

namespace GroupsAPI

/-- A user row: identifier, display name, email and owning team. -/
structure User where
  id : String
  name : String
  email : String
  teamId : String
deriving Repr, DecidableEq

/-- A group row: identifier, name, owning team, creator and creation time. -/
structure Group where
  id : String
  name : String
  teamId : String
  createdById : String
  createdAt : Nat
deriving Repr, DecidableEq

/-- A group membership join row (the GroupUser model). -/
structure GroupUser where
  groupId : String
  userId : String
  createdById : String
  createdAt : Nat
deriving Repr, DecidableEq

/-- An audit event row as created by Event.create at the call sites in the
router: event name, optional subject user, team, subject model id, actor and
the name carried in the free form data field.  The request origin IP is
request metadata and is not part of the persisted state the claims speak
about. -/
structure Event where
  name : String
  userId : Option String
  teamId : String
  modelId : String
  actorId : String
  dataName : String
deriving Repr, DecidableEq

/-- The persistent store: the four tables touched by the router plus a clock
used to stamp creation times of new membership rows. -/
structure DB where
  users : List User
  groups : List Group
  groupUsers : List GroupUser
  events : List Event
  clock : Nat
deriving Repr, DecidableEq

/-- Actions checked through the external policy engine by this router. -/
inductive PolicyAction where
  | read
  | update
  | delete
  | createGroup
deriving Repr, DecidableEq

/-- The external authorization policy, abstracted as a decision function from
an action and a subject id to a verdict for the acting user. -/
def Policy : Type := PolicyAction → String → Bool

/-- Errors surfacing at the HTTP boundary.  typeError models the uncaught
TypeError thrown by the provisioning PATCH handler when the body shape does
not match; validation models the rejection of the external validate
middleware. -/
inductive ApiError where
  | notFound
  | forbidden
  | validation
  | typeError
deriving Repr, DecidableEq

/-- Handler outcome: an error carries the store as it was when the error was
thrown, success carries the updated store and the response body. -/
def HandlerResult (α : Type) : Type := Except (ApiError × DB) (DB × α)

/-- Group.findByPk. -/
def Group.findByPk (db : DB) (id : String) : Option Group :=
  db.groups.find? (fun g => g.id == id)

/-- User.findByPk. -/
def User.findByPk (db : DB) (id : String) : Option User :=
  db.users.find? (fun u => u.id == id)

/-- GroupUser.findOne with a (groupId, userId) where clause. -/
def GroupUser.findOne (db : DB) (groupId userId : String) : Option GroupUser :=
  db.groupUsers.find? (fun m => m.groupId == groupId && m.userId == userId)

/-- GroupUser.findOne with only a groupId where clause, as in the provisioning
PATCH handler. -/
def GroupUser.findOneByGroup (db : DB) (groupId : String) : Option GroupUser :=
  db.groupUsers.find? (fun m => m.groupId == groupId)

/-- User.findAll with an email-in-list where clause, as in the provisioning
PATCH handler's batch lookup. -/
def User.findAllByEmails (db : DB) (emails : List String) : List User :=
  db.users.filter (fun u => emails.contains u.email)

/-- group.$add("user", u, through createdById): creates the join row.  The
parent group instance's own attributes are untouched. -/
def GroupUser.add (db : DB) (groupId userId createdById : String) : DB :=
  { db with
    groupUsers := db.groupUsers ++
      [{ groupId := groupId, userId := userId, createdById := createdById,
         createdAt := db.clock }],
    clock := db.clock + 1 }

/-- group.$remove("user", u): deletes the join rows of the pair.  The parent
group instance's own attributes are untouched. -/
def GroupUser.remove (db : DB) (groupId userId : String) : DB :=
  { db with
    groupUsers := db.groupUsers.filter
      (fun m => !(m.groupId == groupId && m.userId == userId)) }

/-- Modelled from the spec: group.destroy() removes the group row and, by the
cascade declared on the Group model (which is outside this router's source),
all membership rows of the group. -/
def Group.destroy (db : DB) (id : String) : DB :=
  { db with
    groups := db.groups.filter (fun g => !(g.id == id)),
    groupUsers := db.groupUsers.filter (fun m => !(m.groupId == id)) }

/-- Event.create: appends the audit event row. -/
def Event.create (db : DB) (e : Event) : DB :=
  { db with events := db.events ++ [e] }

/-- A fetched Sequelize model instance of a group: the current attribute
values together with the values as of the fetch, for dirty tracking. -/
structure GroupInstance where
  row : Group
  original : Group
deriving Repr, DecidableEq

/-- Fetching an instance: current and original values coincide. -/
def Group.fetch (g : Group) : GroupInstance := { row := g, original := g }

/-- instance.changed(): whether any attribute differs from the fetched
value. -/
def GroupInstance.changed (gi : GroupInstance) : Bool :=
  decide (gi.row ≠ gi.original)

/-- The assignment group.name = name on an instance. -/
def GroupInstance.setName (gi : GroupInstance) (name : String) : GroupInstance :=
  { gi with row := { gi.row with name := name } }

/-- instance.save(): writes the instance's row over the stored row with the
same id. -/
def Group.save (db : DB) (gi : GroupInstance) : DB :=
  { db with
    groups := db.groups.map (fun g => if g.id == gi.row.id then gi.row else g) }

/-- authorize(actor, action, subject): missing subject surfaces as NotFound,
a denying policy as Forbidden, as described for the policy collaborator. -/
def authorize {α : Type} (verdict : Bool) (subject : Option α) (db : DB) :
    Except (ApiError × DB) α :=
  match subject with
  | none => .error (.notFound, db)
  | some a => if verdict then .ok a else .error (.forbidden, db)

/-- Modelled from the spec: the validate middleware rejects a malformed
request before the handler body runs, so the store is untouched. -/
def runValidated {α : Type} (wellFormed : Bool)
    (handler : DB → HandlerResult α) (db : DB) : HandlerResult α :=
  if wellFormed then handler db else .error (.validation, db)

/-- The groups.info handler: fetch by primary key, authorize read, return the
group. -/
def groupsInfo (pol : Policy) (db : DB) (id : String) : HandlerResult Group :=
  match authorize (match Group.findByPk db id with
                   | some g => pol .read g.id
                   | none => false) (Group.findByPk db id) db with
  | .error e => .error e
  | .ok g => .ok (db, g)

/-- The groups.update handler: fetch, authorize update, assign the name on the
instance, and only when the instance reports a change, save and emit the
groups.update event. -/
def groupsUpdate (pol : Policy) (db : DB) (actor : User) (id name : String) :
    HandlerResult Group :=
  match Group.findByPk db id with
  | none => .error (.notFound, db)
  | some g =>
    if pol .update g.id then
      let gi := (Group.fetch g).setName name
      if gi.changed then
        let db1 := Group.save db gi
        let db2 := Event.create db1
          { name := "groups.update", userId := none, teamId := actor.teamId,
            actorId := actor.id, modelId := gi.row.id, dataName := name }
        .ok (db2, gi.row)
      else
        .ok (db, gi.row)
    else .error (.forbidden, db)

/-- The groups.delete handler: fetch, authorize delete, destroy the row and
emit the groups.delete event carrying the prior name. -/
def groupsDelete (pol : Policy) (db : DB) (actor : User) (id : String) :
    HandlerResult Bool :=
  match Group.findByPk db id with
  | none => .error (.notFound, db)
  | some g =>
    if pol .delete g.id then
      let db1 := Group.destroy db g.id
      let db2 := Event.create db1
        { name := "groups.delete", userId := none, teamId := g.teamId,
          actorId := actor.id, modelId := g.id, dataName := g.name }
      .ok (db2, true)
    else .error (.forbidden, db)

/-- Response body of groups.add_user: single element collections of the user,
the membership and the group. -/
structure AddUserResponse where
  users : List User
  groupMemberships : List GroupUser
  groups : List Group
deriving Repr, DecidableEq

/-- The groups.add_user handler: fetch the user and authorize read, fetch the
group and authorize update; when no membership exists, create it, re-fetch the
membership and the group, and emit groups.add_user; otherwise return the
existing state unchanged. -/
def groupsAddUser (pol : Policy) (db : DB) (actor : User) (id userId : String) :
    HandlerResult AddUserResponse :=
  match User.findByPk db userId with
  | none => .error (.notFound, db)
  | some user =>
    if pol .read user.id then
      match Group.findByPk db id with
      | none => .error (.notFound, db)
      | some g =>
        if pol .update g.id then
          match GroupUser.findOne db id userId with
          | some membership =>
            .ok (db, { users := [user], groupMemberships := [membership],
                       groups := [g] })
          | none =>
            let db1 := GroupUser.add db id userId actor.id
            match GroupUser.findOne db1 id userId with
            | none => .error (.notFound, db1)
            | some membership =>
              match Group.findByPk db1 id with
              | none => .error (.notFound, db1)
              | some g2 =>
                let db2 := Event.create db1
                  { name := "groups.add_user", userId := some userId,
                    teamId := user.teamId, actorId := actor.id,
                    modelId := g2.id, dataName := user.name }
                .ok (db2, { users := [user], groupMemberships := [membership],
                            groups := [g2] })
        else .error (.forbidden, db)
    else .error (.forbidden, db)

/-- The groups.remove_user handler: fetch the group and authorize update,
fetch the user and authorize read, unconditionally attempt the removal, emit
groups.remove_user, and re-fetch the group. -/
def groupsRemoveUser (pol : Policy) (db : DB) (actor : User) (id userId : String) :
    HandlerResult (List Group) :=
  match Group.findByPk db id with
  | none => .error (.notFound, db)
  | some g =>
    if pol .update g.id then
      match User.findByPk db userId with
      | none => .error (.notFound, db)
      | some user =>
        if pol .read user.id then
          let db1 := GroupUser.remove db id userId
          let db2 := Event.create db1
            { name := "groups.remove_user", userId := some userId,
              teamId := user.teamId, actorId := actor.id, modelId := g.id,
              dataName := user.name }
          match Group.findByPk db2 id with
          | none => .error (.notFound, db2)
          | some g2 => .ok (db2, [g2])
        else .error (.forbidden, db)
    else .error (.forbidden, db)

/-- Lowercase an ASCII letter; the model of lowercasing under the ORM's
case-insensitive match operator. -/
def lowerChar (c : Char) : Char :=
  if 65 ≤ c.toNat ∧ c.toNat ≤ 90 then Char.ofNat (c.toNat + 32) else c

/-- Whether pat occurs at the head of s. -/
def charsPre : List Char → List Char → Bool
  | [], _ => true
  | _ :: _, [] => false
  | a :: as, b :: bs => a == b && charsPre as bs

/-- Whether pat occurs anywhere inside s. -/
def charsSub (pat : List Char) : List Char → Bool
  | [] => pat.isEmpty
  | b :: bs => charsPre pat (b :: bs) || charsSub pat bs

/-- The iLike percent-query percent predicate: case-insensitive substring
containment. -/
def ilike (q s : String) : Bool :=
  charsSub (q.data.map lowerChar) (s.data.map lowerChar)

/-- Insert an element into a list ordered by the boolean comparator. -/
def insertLe {α : Type} (le : α → α → Bool) (a : α) : List α → List α
  | [] => [a]
  | b :: bs => if le a b then a :: b :: bs else b :: insertLe le a bs

/-- Sort a list by the boolean comparator; the model of the order clause of a
findAll query. -/
def sortByLe {α : Type} (le : α → α → Bool) : List α → List α
  | [] => []
  | a :: as => insertLe le a (sortByLe le as)

/-- Response body of groups.memberships. -/
structure MembershipsResponse where
  groupMemberships : List GroupUser
  users : List User
deriving Repr, DecidableEq

/-- The groups.memberships handler: fetch and authorize read, then list the
group's membership rows ordered by creation time descending with the required
inner join on the user, the join filtered by the iLike clause when a query is
given (an empty query is falsy in the source and builds no clause), and
paginate with the offset and limit of the pagination middleware. -/
def groupsMemberships (pol : Policy) (db : DB) (id : String)
    (query : Option String) (offset limit : Nat) :
    HandlerResult MembershipsResponse :=
  match Group.findByPk db id with
  | none => .error (.notFound, db)
  | some g =>
    if pol .read g.id then
      let userWhere : Option (User → Bool) :=
        match query with
        | some q => if q.isEmpty then none else some (fun u => ilike q u.name)
        | none => none
      let joined := (db.groupUsers.filter (fun m => m.groupId == id)).filterMap
        (fun m =>
          match User.findByPk db m.userId with
          | none => none
          | some u =>
            match userWhere with
            | some w => if w u then some (m, u) else none
            | none => some (m, u))
      let sorted := sortByLe
        (fun a b => decide (b.1.createdAt ≤ a.1.createdAt)) joined
      let page := (sorted.drop offset).take limit
      .ok (db, { groupMemberships := page.map (fun x => x.1),
                 users := page.map (fun x => x.2) })
    else .error (.forbidden, db)

/-- Modelled from the spec: the shared MAX_AVATAR_DISPLAY constant capping the
number of memberships returned per group for avatar display; the claims depend
only on it being a fixed bound. -/
def MAX_AVATAR_DISPLAY : Nat := 6

/-- Modelled from the spec: the Group.filterByMember(userId) scope restricts,
when a member id is given, to groups containing that member; with no member id
it is the plain model. -/
def Group.filterByMember (db : DB) (userId : Option String) (g : Group) : Bool :=
  match userId with
  | none => true
  | some uid => db.groupUsers.any (fun m => m.groupId == g.id && m.userId == uid)

/-- Modelled from the spec: the scope's include of each group's membership
rows, read by the handler as g.groupMemberships. -/
def Group.groupMemberships (db : DB) (g : Group) : List GroupUser :=
  db.groupUsers.filter (fun m => m.groupId == g.id)

/-- The membership.user join target of a membership row. -/
def GroupUser.user (db : DB) (m : GroupUser) : Option User :=
  User.findByPk db m.userId

/-- The comparator of the order clause of groups.list over the sort and
direction inputs. -/
def groupLe (sort direction : String) (a b : Group) : Bool :=
  if direction == "DESC" then
    if sort == "name" then decide (b.name ≤ a.name)
    else decide (b.createdAt ≤ a.createdAt)
  else
    if sort == "name" then decide (a.name ≤ b.name)
    else decide (a.createdAt ≤ b.createdAt)

/-- Response body of groups.list. -/
structure ListResponse where
  groups : List Group
  groupMemberships : List GroupUser
deriving Repr, DecidableEq

/-- The groups.list handler: restrict to the actor's team, apply the optional
exact-name clause (an empty name is falsy in the source and builds no clause)
and the filterByMember scope, order and paginate, and return the page of
groups together with, per group, the memberships having a resolved user,
truncated to MAX_AVATAR_DISPLAY entries. -/
def groupsList (db : DB) (actor : User) (sort direction : String)
    (offset limit : Nat) (userId name : Option String) : DB × ListResponse :=
  let whereMatch : Group → Bool := fun g =>
    g.teamId == actor.teamId &&
      (match name with
       | some n => if n.isEmpty then true else g.name == n
       | none => true)
  let filtered := db.groups.filter
    (fun g => whereMatch g && Group.filterByMember db userId g)
  let sorted := sortByLe (groupLe sort direction) filtered
  let page := (sorted.drop offset).take limit
  (db, { groups := page,
         groupMemberships :=
           (page.map (fun g =>
             ((Group.groupMemberships db g).filter
               (fun m => (GroupUser.user db m).isSome)).take MAX_AVATAR_DISPLAY)).flatten })

/-- One entry of the value array of a provisioning operation; only its email
field is ever read by the handler. -/
structure ScimUserEntry where
  email : String
deriving Repr, DecidableEq

/-- One entry of the Operations array of the provisioning PATCH body; the op
and value fields are reached by optional chaining in the source, so either may
be absent. -/
structure ScimOperation where
  op : Option String
  value : Option (List ScimUserEntry)
deriving Repr, DecidableEq

/-- The provisioning PATCH request body; the Operations field is reached by
optional chaining, so it may be absent. -/
structure ScimBody where
  Operations : Option (List ScimOperation)
deriving Repr, DecidableEq

/-- The optional chain body.Operations[0].value of the source. -/
def ScimBody.firstValue (b : ScimBody) : Option (List ScimUserEntry) :=
  (b.Operations.bind List.head?).bind (fun o => o.value)

/-- The optional chain body.Operations[0].op of the source. -/
def ScimBody.firstOp (b : ScimBody) : Option String :=
  (b.Operations.bind List.head?).bind (fun o => o.op)

/-- The op string constant of the add branch. -/
def opAdd : String := "add"

/-- The op string constant of the remove branch. -/
def opRemove : String := "remove"

/-- Response body of the provisioning PATCH handler. -/
structure PatchResponse where
  ok : Bool
  group : Group
  groupUsers : Option GroupUser
  arrayUserModels : List User
deriving Repr, DecidableEq

/-- The mutable bindings shared by the per-user tasks of the provisioning
PATCH handler: the store, the group instance bound to the group variable, and
the groupUsers variable holding the last touched membership. -/
structure PatchLoopState where
  db : DB
  group : GroupInstance
  groupUsers : Option GroupUser
deriving Repr, DecidableEq

/-- One per-user task of the provisioning PATCH handler, translated branch by
branch from the source: look up the existing membership of the pair; when none
exists and the first operation's op is add, create the join row through
group.$add, and only when the group instance reports a change, save it, emit
groups.add_user, and re-fetch the membership and the group; then, when the op
is remove and a membership was found, delete the join row through
group.$remove, with the same instance-change guard around the event and the
re-fetches.  The re-fetch fallback when the group row is gone keeps the prior
instance; that code sits inside the instance-change guard and is unreachable,
as proved below. -/
def patchProcessUser (body : ScimBody) (authorId : String) (pathId : String)
    (st : PatchLoopState) (userModel : User) : PatchLoopState :=
  let membership := GroupUser.findOne st.db pathId userModel.id
  let afterAdd : PatchLoopState × Option GroupUser :=
    match membership with
    | some m => (st, some m)
    | none =>
      if body.firstOp == some opAdd then
        let db1 := GroupUser.add st.db st.group.row.id userModel.id authorId
        if st.group.changed then
          let db2 := Group.save db1 st.group
          let db3 := Event.create db2
            { name := "groups.add_user", userId := some userModel.id,
              teamId := userModel.teamId, actorId := authorId,
              modelId := st.group.row.id, dataName := userModel.name }
          let m2 := GroupUser.findOne db3 st.group.row.id userModel.id
          let gi2 :=
            match Group.findByPk db3 st.group.row.id with
            | some g => Group.fetch g
            | none => st.group
          ({ db := db3, group := gi2, groupUsers := m2 }, m2)
        else
          ({ st with db := db1 }, membership)
      else (st, membership)
  let st1 := afterAdd.1
  let membership1 := afterAdd.2
  if body.firstOp == some opRemove && membership1.isSome then
    let db1 := GroupUser.remove st1.db st1.group.row.id userModel.id
    if st1.group.changed then
      let db2 := Group.save db1 st1.group
      let db3 := Event.create db2
        { name := "groups.remove_user", userId := some userModel.id,
          teamId := userModel.teamId, actorId := authorId,
          modelId := st1.group.row.id, dataName := userModel.name }
      let m2 := GroupUser.findOne db3 st1.group.row.id userModel.id
      let gi2 :=
        match Group.findByPk db3 st1.group.row.id with
        | some g => Group.fetch g
        | none => st1.group
      { db := db3, group := gi2, groupUsers := m2 }
    else { st1 with db := db1 }
  else st1

/-- The provisioning PATCH groups/:id handler: read the first operation's
value array (a missing array is null in the source and the map call on it
throws before any store access), fetch the group with rejectOnEmpty, read the
group's first membership row into the groupUsers binding, resolve the
requested emails to user rows in one batch lookup, derive the author id from
the DESK_UUID environment value (an empty value is falsy), and when it is
present, run the per-user tasks; respond with ok, the group binding, the
groupUsers binding and the resolved users. -/
def patchGroups (db : DB) (deskUuid : Option String) (pathId : String)
    (body : ScimBody) : HandlerResult PatchResponse :=
  match body.firstValue with
  | none => .error (.typeError, db)
  | some arrayUsers =>
    let arrayEmailAddresses := arrayUsers.map (fun u => u.email)
    match Group.findByPk db pathId with
    | none => .error (.notFound, db)
    | some g =>
      let groupUsers0 := GroupUser.findOneByGroup db pathId
      let arrayUserModels := User.findAllByEmails db arrayEmailAddresses
      let authorId : Option String :=
        match deskUuid with
        | some s => if s.isEmpty then none else some s
        | none => none
      match authorId with
      | some aid =>
        let final := arrayUserModels.foldl (patchProcessUser body aid pathId)
          { db := db, group := Group.fetch g, groupUsers := groupUsers0 }
        .ok (final.db,
          { ok := true, group := final.group.row,
            groupUsers := final.groupUsers,
            arrayUserModels := arrayUserModels })
      | none =>
        .ok (db,
          { ok := true, group := g, groupUsers := groupUsers0,
            arrayUserModels := arrayUserModels })

/-- Concrete group id for witnesses. -/
def wGid : String := "g1"

/-- Concrete user id for witnesses. -/
def wAliceId : String := "u1"

/-- Concrete user id for witnesses. -/
def wBobId : String := "u2"

/-- Concrete team id for witnesses. -/
def wTeam : String := "t1"

/-- Concrete user row for witnesses. -/
def wAlice : User :=
  { id := wAliceId, name := "Janet", email := "a@x.com", teamId := wTeam }

/-- Concrete user row for witnesses. -/
def wBob : User :=
  { id := wBobId, name := "Bob", email := "b@x.com", teamId := wTeam }

/-- Concrete group row for witnesses. -/
def wGroup : Group :=
  { id := wGid, name := "Eng", teamId := wTeam, createdById := wAliceId,
    createdAt := 0 }

/-- Concrete store with no memberships for witnesses. -/
def wDb : DB :=
  { users := [wAlice, wBob], groups := [wGroup], groupUsers := [],
    events := [], clock := 1 }

/-- Concrete membership row for witnesses. -/
def wMemA : GroupUser :=
  { groupId := wGid, userId := wAliceId, createdById := wAliceId,
    createdAt := 10 }

/-- Concrete membership row for witnesses. -/
def wMemB : GroupUser :=
  { groupId := wGid, userId := wBobId, createdById := wAliceId,
    createdAt := 20 }

/-- Concrete store with two memberships for witnesses. -/
def wDbMem : DB :=
  { users := [wAlice, wBob], groups := [wGroup],
    groupUsers := [wMemA, wMemB], events := [], clock := 30 }

/-- The all-allowing policy used by witnesses. -/
def wPol : Policy := fun _ _ => true

/-- A provisioning body whose Operations array shape does not match. -/
def wBadBody : ScimBody := { Operations := none }

/-- The provisioning body of the spec's add scenario: op add with the emails
a@x.com and b@x.com, of which only a@x.com resolves in wDb. -/
def wAddBody : ScimBody :=
  { Operations := some
      [{ op := some opAdd,
         value := some [{ email := "a@x.com" }, { email := "x@x.com" }] }] }

/-- The provisioning actor id standing for the DESK_UUID environment value in
witnesses. -/
def wDesk : String := "desk-1"

/-- A changed group name for witnesses. -/
def wNewName : String := "Design"

/-- The sort input used by the groups.list witness. -/
def wSort : String := "name"

/-- The direction input used by the groups.list witness. -/
def wDir : String := "ASC"

/-- A member name query for witnesses. -/
def wQuery : String := "jan"

/-- The effective store transition of one per-user provisioning task: because
association add and remove never mark the group instance changed, the guarded
save, audit event and re-fetch code of patchProcessUser is unreachable, and a
task only creates the join row of its pair (op add, no membership) or deletes
it (op remove, membership present).  The equivalence with patchProcessUser on
a freshly fetched instance is proved below. -/
def patchStep (op : Option String) (authorId gid pathId : String)
    (db : DB) (u : User) : DB :=
  match GroupUser.findOne db pathId u.id with
  | none => if op == some opAdd then GroupUser.add db gid u.id authorId else db
  | some _ => if op == some opRemove then GroupUser.remove db gid u.id else db

theorem find?_none_of_all_neg {α : Type} (l : List α) (p : α → Bool)
    (h : ∀ a ∈ l, p a = false) : l.find? p = none := by
  rw [List.find?_eq_none]
  intro a ha
  simp [h a ha]

theorem find?_append_of_none {α : Type} (l1 l2 : List α) (p : α → Bool)
    (h : l1.find? p = none) : (l1 ++ l2).find? p = l2.find? p := by
  rw [List.find?_append, h, Option.none_or]

theorem find?_filter_opposite {α : Type} (l : List α) (p q : α → Bool)
    (h : ∀ a ∈ l, q a = true → p a = false) :
    (l.filter q).find? p = none := by
  apply find?_none_of_all_neg
  intro a ha
  have hm := List.mem_filter.mp ha
  exact h a hm.1 hm.2

theorem filter_id_of_all_pos {α : Type} (l : List α) (p : α → Bool)
    (h : ∀ a ∈ l, p a = true) : l.filter p = l :=
  List.filter_eq_self.mpr h

theorem find?_map_replace (l : List Group) (i : String) (g r : Group)
    (h : l.find? (fun x => x.id == i) = some g) (hr : r.id = i) :
    (l.map (fun x => if x.id == g.id then r else x)).find?
      (fun x => x.id == i) = some r := by
  induction l with
  | nil => simp at h
  | cons a as ih =>
    rw [List.find?_cons] at h
    simp only [List.map_cons]
    rw [List.find?_cons]
    cases ha : (a.id == i)
    case true =>
      rw [ha] at h
      have hag : a = g := by simpa using h
      subst hag
      simp [hr]
    case false =>
      rw [ha] at h
      simp only at h
      have hgi := List.find?_some h
      simp only [beq_iff_eq] at hgi
      have hane : (a.id == g.id) = false := by
        cases hc : (a.id == g.id)
        · rfl
        · exfalso
          rw [beq_iff_eq] at hc
          rw [hc, hgi] at ha
          simp at ha
      simp only [hane, Bool.false_eq_true, if_false, ha]
      exact ih h

theorem mem_insertLe {α : Type} (le : α → α → Bool) (a x : α) (l : List α) :
    x ∈ insertLe le a l ↔ x = a ∨ x ∈ l := by
  induction l with
  | nil => simp [insertLe]
  | cons b bs ih =>
    unfold insertLe
    cases h : le a b
    · rw [if_neg Bool.false_ne_true, List.mem_cons, ih, List.mem_cons]
      tauto
    · rw [if_pos rfl]
      exact List.mem_cons

theorem mem_sortByLe {α : Type} (le : α → α → Bool) (x : α) (l : List α) :
    x ∈ sortByLe le l ↔ x ∈ l := by
  induction l with
  | nil => simp [sortByLe]
  | cons a as ih =>
    unfold sortByLe
    rw [mem_insertLe, List.mem_cons, ih]

theorem perm_insertLe {α : Type} (le : α → α → Bool) (a : α) (l : List α) :
    (insertLe le a l).Perm (a :: l) := by
  induction l with
  | nil => exact List.Perm.refl _
  | cons b bs ih =>
    unfold insertLe
    cases h : le a b
    · rw [if_neg Bool.false_ne_true]
      exact (ih.cons b).trans (List.Perm.swap a b bs)
    · rw [if_pos rfl]

theorem perm_sortByLe {α : Type} (le : α → α → Bool) (l : List α) :
    (sortByLe le l).Perm l := by
  induction l with
  | nil => exact List.Perm.refl _
  | cons a as ih =>
    unfold sortByLe
    exact (perm_insertLe le a (sortByLe le as)).trans (ih.cons a)

theorem pairwise_insertLe {α : Type} (le : α → α → Bool)
    (htrans : ∀ x y z, le x y = true → le y z = true → le x z = true)
    (htot : ∀ x y, le x y = true ∨ le y x = true)
    (a : α) (l : List α) (h : l.Pairwise (fun x y => le x y = true)) :
    (insertLe le a l).Pairwise (fun x y => le x y = true) := by
  induction l with
  | nil => simp [insertLe]
  | cons b bs ih =>
    rw [List.pairwise_cons] at h
    obtain ⟨hb, hbs⟩ := h
    unfold insertLe
    cases hab : le a b
    · rw [if_neg Bool.false_ne_true, List.pairwise_cons]
      refine ⟨?_, ih hbs⟩
      intro x hx
      rcases (mem_insertLe le a x bs).mp hx with hxa | hx
      · subst hxa
        exact (htot x b).resolve_left (by simp [hab])
      · exact hb x hx
    · rw [if_pos rfl, List.pairwise_cons]
      refine ⟨?_, List.pairwise_cons.mpr ⟨hb, hbs⟩⟩
      intro x hx
      rcases List.mem_cons.mp hx with hxb | hx
      · subst hxb
        exact hab
      · exact htrans a b x hab (hb x hx)

theorem pairwise_sortByLe {α : Type} (le : α → α → Bool)
    (htrans : ∀ x y z, le x y = true → le y z = true → le x z = true)
    (htot : ∀ x y, le x y = true ∨ le y x = true) (l : List α) :
    (sortByLe le l).Pairwise (fun x y => le x y = true) := by
  induction l with
  | nil => simp [sortByLe]
  | cons a as ih =>
    unfold sortByLe
    exact pairwise_insertLe le htrans htot a _ ih

theorem patchProcessUser_eq (body : ScimBody) (aid pathId : String)
    (st : PatchLoopState) (u : User) (h : st.group.row = st.group.original) :
    patchProcessUser body aid pathId st u =
      { st with db := patchStep body.firstOp aid st.group.row.id pathId st.db u } := by
  have hch : st.group.changed = false := by
    simp [GroupInstance.changed, h]
  unfold patchProcessUser patchStep
  cases hm : GroupUser.findOne st.db pathId u.id
  case none =>
    simp only [hm, hch, Bool.false_eq_true, if_false]
    cases hop : (body.firstOp == some opAdd) <;>
      cases hop2 : (body.firstOp == some opRemove) <;>
        simp [hop, hop2]
  case some m =>
    simp only [hm, hch, Bool.false_eq_true, if_false]
    cases hop2 : (body.firstOp == some opRemove) <;> simp [hop2]

theorem foldl_patchProcessUser (body : ScimBody) (aid pathId : String)
    (l : List User) (st : PatchLoopState) (h : st.group.row = st.group.original) :
    l.foldl (patchProcessUser body aid pathId) st =
      { st with
        db := l.foldl (patchStep body.firstOp aid st.group.row.id pathId) st.db } := by
  induction l generalizing st with
  | nil => rfl
  | cons u us ih =>
    rw [List.foldl_cons, List.foldl_cons,
        patchProcessUser_eq body aid pathId st u h,
        ih { st with db := patchStep body.firstOp aid st.group.row.id pathId st.db u } h]

theorem patchGroups_run (db : DB) (aid pathId : String)
    (body : ScimBody) (entries : List ScimUserEntry) (g : Group)
    (hv : body.firstValue = some entries)
    (hg : Group.findByPk db pathId = some g)
    (hne : aid.isEmpty = false) :
    patchGroups db (some aid) pathId body =
      .ok ((User.findAllByEmails db (entries.map (fun e => e.email))).foldl
             (patchStep body.firstOp aid g.id pathId) db,
           { ok := true, group := g,
             groupUsers := GroupUser.findOneByGroup db pathId,
             arrayUserModels :=
               User.findAllByEmails db (entries.map (fun e => e.email)) }) := by
  simp only [patchGroups, hv, hg, hne, Bool.false_eq_true, if_false]
  rw [foldl_patchProcessUser body aid pathId _ _ rfl]
  rfl

theorem patchStep_frame (op : Option String) (aid gid pathId : String)
    (db : DB) (u : User) :
    (∀ m ∈ (patchStep op aid gid pathId db u).groupUsers,
      m ∈ db.groupUsers ∨ m.userId = u.id) ∧
    (∀ m ∈ db.groupUsers,
      m ∈ (patchStep op aid gid pathId db u).groupUsers ∨ m.userId = u.id) ∧
    (patchStep op aid gid pathId db u).events = db.events := by
  unfold patchStep
  cases hm : GroupUser.findOne db pathId u.id
  case none =>
    cases hop : (op == some opAdd)
    · simp only [hop, Bool.false_eq_true, if_false]
      exact ⟨fun m hm => Or.inl hm, fun m hm => Or.inl hm, trivial⟩
    · simp only [hop, if_pos rfl, GroupUser.add]
      refine ⟨?_, ?_, rfl⟩
      · intro m hmm
        rcases List.mem_append.mp hmm with hin | hin
        · exact Or.inl hin
        · right
          simp at hin
          rw [hin]
      · intro m hmm
        exact Or.inl (List.mem_append.mpr (Or.inl hmm))
  case some m0 =>
    cases hop : (op == some opRemove)
    · simp only [hop, Bool.false_eq_true, if_false]
      exact ⟨fun m hm => Or.inl hm, fun m hm => Or.inl hm, trivial⟩
    · simp only [hop, if_pos rfl, GroupUser.remove]
      refine ⟨?_, ?_, rfl⟩
      · intro m hmm
        exact Or.inl (List.mem_filter.mp hmm).1
      · intro m hmm
        cases hpm : (m.groupId == gid && m.userId == u.id)
        · left
          exact List.mem_filter.mpr ⟨hmm, by simp [hpm]⟩
        · right
          have := (Bool.and_eq_true _ _).mp hpm
          exact beq_iff_eq.mp this.2

theorem foldl_patchStep_frame (op : Option String) (aid gid pathId : String)
    (l : List User) (db : DB) :
    (∀ m ∈ (l.foldl (patchStep op aid gid pathId) db).groupUsers,
      m ∈ db.groupUsers ∨ m.userId ∈ l.map (fun u => u.id)) ∧
    (∀ m ∈ db.groupUsers,
      m ∈ (l.foldl (patchStep op aid gid pathId) db).groupUsers ∨
        m.userId ∈ l.map (fun u => u.id)) ∧
    (l.foldl (patchStep op aid gid pathId) db).events = db.events := by
  induction l generalizing db with
  | nil => simp
  | cons u us ih =>
    rw [List.foldl_cons]
    obtain ⟨h1, h2, h3⟩ := patchStep_frame op aid gid pathId db u
    obtain ⟨g1, g2, g3⟩ := ih (patchStep op aid gid pathId db u)
    refine ⟨?_, ?_, ?_⟩
    · intro m hm
      rcases g1 m hm with hin | hin
      · rcases h1 m hin with hin2 | hin2
        · exact Or.inl hin2
        · exact Or.inr (by simp [hin2])
      · exact Or.inr (by simp [hin])
    · intro m hm
      rcases h2 m hm with hin | hin
      · rcases g2 m hin with hin2 | hin2
        · exact Or.inl hin2
        · exact Or.inr (by simp [hin2])
      · exact Or.inr (by simp [hin])
    · rw [g3, h3]

/-- C3: groups.update with a name equal to the persisted name performs no
write and emits zero audit events; groups.update with a different name writes
the new name and emits exactly one groups.update event whose data.name equals
the new name. -/
theorem groupsUpdate_change_detection (pol : Policy) (db : DB) (actor : User)
    (id newName : String) (g : Group)
    (hg : Group.findByPk db id = some g)
    (hp : pol .update g.id = true) :
    (newName = g.name → groupsUpdate pol db actor id newName = .ok (db, g)) ∧
    (newName ≠ g.name →
      ∃ db',
        groupsUpdate pol db actor id newName =
          .ok (db', { g with name := newName }) ∧
        Group.findByPk db' id = some { g with name := newName } ∧
        db'.events = db.events ++
          [{ name := "groups.update", userId := none, teamId := actor.teamId,
             actorId := actor.id, modelId := g.id, dataName := newName }] ∧
        db'.groupUsers = db.groupUsers) := by
  have hg' : db.groups.find? (fun x => x.id == id) = some g := hg
  have hgid : (g.id == id) = true := by
    have h2 := List.find?_some hg'
    exact h2
  constructor
  · intro hsame
    subst hsame
    have hch : ((Group.fetch g).setName g.name).changed = false := by
      have hro : (({ g with name := g.name } : Group) = g) := rfl
      simp [GroupInstance.changed, Group.fetch, GroupInstance.setName, hro]
    simp only [groupsUpdate, hg]
    rw [if_pos hp, if_neg (by simp [hch])]
    rfl
  · intro hdiff
    have hch : ((Group.fetch g).setName newName).changed = true := by
      simp only [GroupInstance.changed, Group.fetch, GroupInstance.setName,
        decide_eq_true_eq]
      intro hcon
      exact hdiff (congrArg Group.name hcon)
    refine ⟨{ db with
        groups := db.groups.map
          (fun x => if x.id == g.id then { g with name := newName } else x),
        events := db.events ++
          [{ name := "groups.update", userId := none, teamId := actor.teamId,
             actorId := actor.id, modelId := g.id, dataName := newName }] },
      ?_, ?_, rfl, rfl⟩
    · simp only [groupsUpdate, hg]
      rw [if_pos hp, if_pos (by simp [hch])]
      rfl
    · show (db.groups.map
          (fun x => if x.id == g.id then { g with name := newName } else x)).find?
          (fun x => x.id == id) = _
      exact find?_map_replace db.groups id g { g with name := newName } hg'
        (beq_iff_eq.mp hgid)

/-- Witness for C3 at a concrete store: an unchanged name leaves the store
untouched, a changed name writes and logs exactly one event. -/
theorem groupsUpdate_change_detection_witness :
    (groupsUpdate wPol wDb wAlice wGid wGroup.name = .ok (wDb, wGroup)) ∧
    (∃ db',
      groupsUpdate wPol wDb wAlice wGid wNewName =
        .ok (db', { wGroup with name := wNewName }) ∧
      Group.findByPk db' wGid = some { wGroup with name := wNewName } ∧
      db'.events = wDb.events ++
        [{ name := "groups.update", userId := none, teamId := wAlice.teamId,
           actorId := wAlice.id, modelId := wGroup.id, dataName := wNewName }] ∧
      db'.groupUsers = wDb.groupUsers) :=
  ⟨(groupsUpdate_change_detection wPol wDb wAlice wGid wGroup.name wGroup
      (by decide) (by decide)).1 rfl,
   (groupsUpdate_change_detection wPol wDb wAlice wGid wNewName wGroup
      (by decide) (by decide)).2 (by decide)⟩

/-- C4: groups.remove_user on a pair with no existing membership leaves the
membership table unchanged, still emits a groups.remove_user audit event, and
re-fetches the group after the removal attempt. -/
theorem groupsRemoveUser_no_membership (pol : Policy) (db : DB) (actor : User)
    (gid uid : String) (g : Group) (u : User)
    (hg : Group.findByPk db gid = some g)
    (hpg : pol .update g.id = true)
    (hu : User.findByPk db uid = some u)
    (hpu : pol .read u.id = true)
    (hnone : ∀ m ∈ db.groupUsers, (m.groupId == gid && m.userId == uid) = false) :
    ∃ db',
      groupsRemoveUser pol db actor gid uid = .ok (db', [g]) ∧
      db'.groupUsers = db.groupUsers ∧
      db'.events = db.events ++
        [{ name := "groups.remove_user", userId := some uid, teamId := u.teamId,
           actorId := actor.id, modelId := g.id, dataName := u.name }] ∧
      Group.findByPk db' gid = some g := by
  have hfil : db.groupUsers.filter
      (fun m => !(m.groupId == gid && m.userId == uid)) = db.groupUsers := by
    apply filter_id_of_all_pos
    intro m hm
    simp [hnone m hm]
  have hrm : GroupUser.remove db gid uid = db := by
    show { db with groupUsers := db.groupUsers.filter _ } = db
    rw [hfil]
  have hg2 : Group.findByPk
      (Event.create db
        { name := "groups.remove_user", userId := some uid, teamId := u.teamId,
          actorId := actor.id, modelId := g.id, dataName := u.name }) gid =
      some g := hg
  refine ⟨{ db with events := db.events ++
      [{ name := "groups.remove_user", userId := some uid, teamId := u.teamId,
         actorId := actor.id, modelId := g.id, dataName := u.name }] },
    ?_, rfl, rfl, hg⟩
  simp only [groupsRemoveUser, hg, hu]
  rw [if_pos hpg, if_pos hpu, hrm]
  simp only [hg2]
  rfl

/-- Witness for C4 at a concrete store with no memberships. -/
theorem groupsRemoveUser_no_membership_witness :
    ∃ db',
      groupsRemoveUser wPol wDb wAlice wGid wAliceId = .ok (db', [wGroup]) ∧
      db'.groupUsers = wDb.groupUsers ∧
      db'.events = wDb.events ++
        [{ name := "groups.remove_user", userId := some wAliceId,
           teamId := wAlice.teamId, actorId := wAlice.id, modelId := wGroup.id,
           dataName := wAlice.name }] ∧
      Group.findByPk db' wGid = some wGroup :=
  groupsRemoveUser_no_membership wPol wDb wAlice wGid wAliceId wGroup wAlice
    (by decide) (by decide) (by decide) (by decide) (by simp [wDb])

/-- C6: groups.delete removes the group row and by cascade all its membership
rows, emits exactly one groups.delete event whose data.name is the prior
name, and a subsequent groups.info on the same id fails with NotFound. -/
theorem groupsDelete_cascades_info_not_found (pol pol2 : Policy) (db : DB)
    (actor : User) (id : String) (g : Group)
    (hg : Group.findByPk db id = some g)
    (hp : pol .delete g.id = true) :
    ∃ db',
      groupsDelete pol db actor id = .ok (db', true) ∧
      (∀ g' ∈ db'.groups, ¬g'.id = id) ∧
      (∀ m ∈ db'.groupUsers, ¬m.groupId = id) ∧
      db'.events = db.events ++
        [{ name := "groups.delete", userId := none, teamId := g.teamId,
           actorId := actor.id, modelId := g.id, dataName := g.name }] ∧
      groupsInfo pol2 db' id = .error (.notFound, db') := by
  have hgf : db.groups.find? (fun x => x.id == id) = some g := hg
  have hgid : g.id = id := by
    have h2 := List.find?_some hgf
    exact beq_iff_eq.mp h2
  refine ⟨{ db with
      groups := db.groups.filter (fun x => !(x.id == g.id)),
      groupUsers := db.groupUsers.filter (fun m => !(m.groupId == g.id)),
      events := db.events ++
        [{ name := "groups.delete", userId := none, teamId := g.teamId,
           actorId := actor.id, modelId := g.id, dataName := g.name }] },
    ?_, ?_, ?_, rfl, ?_⟩
  · simp only [groupsDelete, hg]
    rw [if_pos hp]
    rfl
  · intro g' hg'
    have := List.mem_filter.mp hg'
    have hne := this.2
    simp only [Bool.not_eq_true', beq_eq_false_iff_ne] at hne
    rw [hgid] at hne
    exact hne
  · intro m hm
    have := List.mem_filter.mp hm
    have hne := this.2
    simp only [Bool.not_eq_true', beq_eq_false_iff_ne] at hne
    rw [hgid] at hne
    exact hne
  · have hfind : (db.groups.filter (fun x => !(x.id == g.id))).find?
        (fun x => x.id == id) = none := by
      apply find?_none_of_all_neg
      intro a ha
      have := List.mem_filter.mp ha
      have hne := this.2
      simp only [Bool.not_eq_true', beq_eq_false_iff_ne] at hne
      rw [hgid] at hne
      simp [hne]
    have hfind2 : Group.findByPk { db with
        groups := db.groups.filter (fun x => !(x.id == g.id)),
        groupUsers := db.groupUsers.filter (fun m => !(m.groupId == g.id)),
        events := db.events ++
          [{ name := "groups.delete", userId := none, teamId := g.teamId,
             actorId := actor.id, modelId := g.id, dataName := g.name }] } id =
        none := hfind
    simp only [groupsInfo, hfind2, authorize]

/-- Witness for C6 at a concrete store holding two memberships of the
group. -/
theorem groupsDelete_cascades_info_not_found_witness :
    ∃ db',
      groupsDelete wPol wDbMem wAlice wGid = .ok (db', true) ∧
      (∀ g' ∈ db'.groups, ¬g'.id = wGid) ∧
      (∀ m ∈ db'.groupUsers, ¬m.groupId = wGid) ∧
      db'.events = wDbMem.events ++
        [{ name := "groups.delete", userId := none, teamId := wGroup.teamId,
           actorId := wAlice.id, modelId := wGroup.id, dataName := wGroup.name }] ∧
      groupsInfo wPol db' wGid = .error (.notFound, db') :=
  groupsDelete_cascades_info_not_found wPol wPol wDbMem wAlice wGid wGroup
    (by decide) (by decide)

/-- C1 is a code bug: on the provisioning PATCH add scenario of the spec (one
resolvable email, one unresolvable email, no existing members, DESK_UUID set)
the handler creates exactly one membership row for the resolved user, but the
groups.add_user audit event is never emitted, because its emission sits behind
an instance-changed guard that is always false after an association add; the
response also shows that neither the membership nor the group is re-fetched.
This theorem evaluates the handler at that failing input. -/
theorem patchGroups_add_creates_membership_without_event :
    patchGroups wDb (some wDesk) wGid wAddBody =
      .ok ({ wDb with
             groupUsers := [{ groupId := wGid, userId := wAliceId,
                              createdById := wDesk, createdAt := 1 }],
             clock := 2 },
           { ok := true, group := wGroup, groupUsers := none,
             arrayUserModels := [wAlice] }) := by
  rfl

/-- C10: with DESK_UUID unset the provisioning PATCH performs no store change
at all for any well-formed body, yet responds ok together with the fetched
group, the group's first membership and the resolved user records. -/
theorem patchGroups_noop_without_desk_uuid (db : DB) (pathId : String)
    (body : ScimBody) (entries : List ScimUserEntry) (g : Group)
    (hv : body.firstValue = some entries)
    (hg : Group.findByPk db pathId = some g) :
    patchGroups db none pathId body =
      .ok (db,
        { ok := true, group := g,
          groupUsers := GroupUser.findOneByGroup db pathId,
          arrayUserModels :=
            User.findAllByEmails db (entries.map (fun e => e.email)) }) := by
  simp only [patchGroups, hv, hg]

/-- Witness for C10 at the concrete add scenario store. -/
theorem patchGroups_noop_without_desk_uuid_witness :
    patchGroups wDb none wGid wAddBody =
      .ok (wDb,
        { ok := true, group := wGroup,
          groupUsers := GroupUser.findOneByGroup wDb wGid,
          arrayUserModels :=
            User.findAllByEmails wDb
              (([{ email := "a@x.com" }, { email := "x@x.com" }] :
                  List ScimUserEntry).map (fun e => e.email)) }) :=
  patchGroups_noop_without_desk_uuid wDb wGid wAddBody
    [{ email := "a@x.com" }, { email := "x@x.com" }] wGroup rfl (by decide)

/-- C7: a malformed request fails before any persistence: the provisioning
PATCH throws its TypeError on a body whose Operations array shape does not
match before touching the store, and the validate middleware of every other
operation rejects a malformed request with the store untouched. -/
theorem malformed_requests_fail_before_persistence :
    (∀ (db : DB) (deskUuid : Option String) (pathId : String) (body : ScimBody),
      body.firstValue = none →
      patchGroups db deskUuid pathId body = .error (.typeError, db)) ∧
    (∀ (α : Type) (handler : DB → HandlerResult α) (db : DB),
      runValidated false handler db = .error (.validation, db)) := by
  constructor
  · intro db deskUuid pathId body hv
    simp only [patchGroups, hv]
  · intro α handler db
    rfl

/-- Witness for C7: the PATCH rejection at a concrete malformed body and the
validation rejection of a concrete handler, both leaving the concrete store
unchanged. -/
theorem malformed_requests_fail_before_persistence_witness :
    patchGroups wDb (some wDesk) wGid wBadBody = .error (.typeError, wDb) ∧
    runValidated false (fun db => .ok (db, true)) wDb =
      .error (.validation, wDb) :=
  ⟨malformed_requests_fail_before_persistence.1 wDb (some wDesk) wGid wBadBody
     rfl,
   malformed_requests_fail_before_persistence.2 Bool (fun db => .ok (db, true))
     wDb⟩

/-- C2: calling groups.add_user twice with the same (group, user) pair, from a
store with no membership and no groups.add_user event for the pair, creates
exactly one membership row and exactly one groups.add_user event on the first
call; the second call creates nothing, emits nothing, and returns the existing
membership, user and group unchanged. -/
theorem groupsAddUser_idempotent (pol : Policy) (db : DB) (actor u : User)
    (g : Group) (gid uid : String)
    (hu : User.findByPk db uid = some u)
    (hg : Group.findByPk db gid = some g)
    (hpu : pol .read u.id = true)
    (hpg : pol .update g.id = true)
    (hnone : ∀ m ∈ db.groupUsers, (m.groupId == gid && m.userId == uid) = false)
    (hev : db.events.countP (fun e => e.name == "groups.add_user" &&
      e.userId == some uid && e.modelId == g.id) = 0) :
    ∃ db1 m,
      m = { groupId := gid, userId := uid, createdById := actor.id,
            createdAt := db.clock } ∧
      groupsAddUser pol db actor gid uid =
        .ok (db1, { users := [u], groupMemberships := [m], groups := [g] }) ∧
      db1.groupUsers.countP (fun x => x.groupId == gid && x.userId == uid) = 1 ∧
      db1.events.countP (fun e => e.name == "groups.add_user" &&
        e.userId == some uid && e.modelId == g.id) = 1 ∧
      groupsAddUser pol db1 actor gid uid =
        .ok (db1, { users := [u], groupMemberships := [m], groups := [g] }) := by
  have hfind : GroupUser.findOne db gid uid = none :=
    find?_none_of_all_neg _ _ hnone
  have hm1 : GroupUser.findOne (GroupUser.add db gid uid actor.id) gid uid =
      some { groupId := gid, userId := uid, createdById := actor.id,
             createdAt := db.clock } := by
    show (db.groupUsers ++
      [({ groupId := gid, userId := uid, createdById := actor.id,
          createdAt := db.clock } : GroupUser)]).find? _ = _
    rw [find?_append_of_none _ _ _ hfind]
    simp
  have hg1 : Group.findByPk (GroupUser.add db gid uid actor.id) gid = some g := hg
  refine ⟨{ db with
      groupUsers := db.groupUsers ++
        [{ groupId := gid, userId := uid, createdById := actor.id,
           createdAt := db.clock }],
      events := db.events ++
        [{ name := "groups.add_user", userId := some uid, teamId := u.teamId,
           actorId := actor.id, modelId := g.id, dataName := u.name }],
      clock := db.clock + 1 },
    ({ groupId := gid, userId := uid, createdById := actor.id,
       createdAt := db.clock } : GroupUser),
    rfl, ?_, ?_, ?_, ?_⟩
  · simp only [groupsAddUser, hu, hg]
    rw [if_pos hpu, if_pos hpg]
    simp only [hfind, hm1, hg1]
    rfl
  · show (db.groupUsers ++ _).countP _ = 1
    rw [List.countP_append]
    rw [List.countP_eq_zero.mpr (fun m hm => by simp [hnone m hm])]
    simp
  · show (db.events ++ _).countP _ = 1
    rw [List.countP_append, hev]
    simp
  · have hu2 : User.findByPk { db with
        groupUsers := db.groupUsers ++
          [{ groupId := gid, userId := uid, createdById := actor.id,
             createdAt := db.clock }],
        events := db.events ++
          [{ name := "groups.add_user", userId := some uid, teamId := u.teamId,
             actorId := actor.id, modelId := g.id, dataName := u.name }],
        clock := db.clock + 1 } uid = some u := hu
    have hg2 : Group.findByPk { db with
        groupUsers := db.groupUsers ++
          [{ groupId := gid, userId := uid, createdById := actor.id,
             createdAt := db.clock }],
        events := db.events ++
          [{ name := "groups.add_user", userId := some uid, teamId := u.teamId,
             actorId := actor.id, modelId := g.id, dataName := u.name }],
        clock := db.clock + 1 } gid = some g := hg
    have hfind2 : GroupUser.findOne { db with
        groupUsers := db.groupUsers ++
          [{ groupId := gid, userId := uid, createdById := actor.id,
             createdAt := db.clock }],
        events := db.events ++
          [{ name := "groups.add_user", userId := some uid, teamId := u.teamId,
             actorId := actor.id, modelId := g.id, dataName := u.name }],
        clock := db.clock + 1 } gid uid =
        some { groupId := gid, userId := uid, createdById := actor.id,
               createdAt := db.clock } := by
      show (db.groupUsers ++ _).find? _ = _
      rw [find?_append_of_none _ _ _ hfind]
      simp
    simp only [groupsAddUser, hu2, hg2]
    rw [if_pos hpu, if_pos hpg]
    simp only [hfind2]

/-- Witness for C2 at the concrete membership-free store. -/
theorem groupsAddUser_idempotent_witness :
    ∃ db1 m,
      m = { groupId := wGid, userId := wAliceId, createdById := wAlice.id,
            createdAt := wDb.clock } ∧
      groupsAddUser wPol wDb wAlice wGid wAliceId =
        .ok (db1, { users := [wAlice], groupMemberships := [m],
                    groups := [wGroup] }) ∧
      db1.groupUsers.countP
        (fun x => x.groupId == wGid && x.userId == wAliceId) = 1 ∧
      db1.events.countP (fun e => e.name == "groups.add_user" &&
        e.userId == some wAliceId && e.modelId == wGroup.id) = 1 ∧
      groupsAddUser wPol db1 wAlice wGid wAliceId =
        .ok (db1, { users := [wAlice], groupMemberships := [m],
                    groups := [wGroup] }) :=
  groupsAddUser_idempotent wPol wDb wAlice wAlice wGroup wGid wAliceId
    (by decide) (by decide) (by decide) (by decide) (by simp [wDb]) (by decide)

/-- C5: in the provisioning sync, a requested email that resolves to no user
row is silently dropped: the handler succeeds, only users returned by the one
batch email lookup are processed, every membership row created or deleted
belongs to a resolved user, and every audit event row present afterwards was
already present before or concerns a resolved user. -/
theorem patchGroups_unresolved_emails_dropped (db : DB)
    (deskUuid : Option String) (pathId : String) (body : ScimBody)
    (entries : List ScimUserEntry) (g : Group)
    (hv : body.firstValue = some entries)
    (hg : Group.findByPk db pathId = some g) :
    ∃ db' resp,
      patchGroups db deskUuid pathId body = .ok (db', resp) ∧
      resp.ok = true ∧
      resp.arrayUserModels =
        User.findAllByEmails db (entries.map (fun e => e.email)) ∧
      (∀ m ∈ db'.groupUsers, m ∈ db.groupUsers ∨
        m.userId ∈ (User.findAllByEmails db
          (entries.map (fun e => e.email))).map (fun x => x.id)) ∧
      (∀ m ∈ db.groupUsers, m ∈ db'.groupUsers ∨
        m.userId ∈ (User.findAllByEmails db
          (entries.map (fun e => e.email))).map (fun x => x.id)) ∧
      (∀ e ∈ db'.events, e ∈ db.events ∨
        ∃ x ∈ User.findAllByEmails db (entries.map (fun e => e.email)),
          e.userId = some x.id) := by
  match deskUuid with
  | none =>
    refine ⟨db, _, patchGroups_noop_without_desk_uuid db pathId body entries g hv hg,
      rfl, rfl, ?_, ?_, ?_⟩
    · exact fun m hm => Or.inl hm
    · exact fun m hm => Or.inl hm
    · exact fun e he => Or.inl he
  | some aid =>
    match hae : aid.isEmpty with
    | true =>
      have hrun : patchGroups db (some aid) pathId body =
          .ok (db,
            { ok := true, group := g,
              groupUsers := GroupUser.findOneByGroup db pathId,
              arrayUserModels :=
                User.findAllByEmails db (entries.map (fun e => e.email)) }) := by
        simp only [patchGroups, hv, hg, hae, if_true]
      refine ⟨db, _, hrun, rfl, rfl, ?_, ?_, ?_⟩
      · exact fun m hm => Or.inl hm
      · exact fun m hm => Or.inl hm
      · exact fun e he => Or.inl he
    | false =>
      obtain ⟨h1, h2, h3⟩ := foldl_patchStep_frame body.firstOp aid g.id pathId
        (User.findAllByEmails db (entries.map (fun e => e.email))) db
      refine ⟨_, _, patchGroups_run db aid pathId body entries g hv hg hae,
        rfl, rfl, ?_, ?_, ?_⟩
      · intro m hm
        rcases h1 m hm with hin | hin
        · exact Or.inl hin
        · right
          obtain ⟨x, hx, hxe⟩ := List.mem_map.mp hin
          exact List.mem_map.mpr ⟨x, hx, hxe⟩
      · intro m hm
        rcases h2 m hm with hin | hin
        · exact Or.inl hin
        · right
          obtain ⟨x, hx, hxe⟩ := List.mem_map.mp hin
          exact List.mem_map.mpr ⟨x, hx, hxe⟩
      · intro e he
        rw [h3] at he
        exact Or.inl he

/-- Witness for C5 at the concrete add scenario store, where the email
x@x.com resolves to no user. -/
theorem patchGroups_unresolved_emails_dropped_witness :
    ∃ db' resp,
      patchGroups wDb (some wDesk) wGid wAddBody = .ok (db', resp) ∧
      resp.ok = true ∧
      resp.arrayUserModels =
        User.findAllByEmails wDb
          (([{ email := "a@x.com" }, { email := "x@x.com" }] :
              List ScimUserEntry).map (fun e => e.email)) ∧
      (∀ m ∈ db'.groupUsers, m ∈ wDb.groupUsers ∨
        m.userId ∈ (User.findAllByEmails wDb
          (([{ email := "a@x.com" }, { email := "x@x.com" }] :
              List ScimUserEntry).map (fun e => e.email))).map (fun x => x.id)) ∧
      (∀ m ∈ wDb.groupUsers, m ∈ db'.groupUsers ∨
        m.userId ∈ (User.findAllByEmails wDb
          (([{ email := "a@x.com" }, { email := "x@x.com" }] :
              List ScimUserEntry).map (fun e => e.email))).map (fun x => x.id)) ∧
      (∀ e ∈ db'.events, e ∈ wDb.events ∨
        ∃ x ∈ User.findAllByEmails wDb
          (([{ email := "a@x.com" }, { email := "x@x.com" }] :
              List ScimUserEntry).map (fun e => e.email)),
          e.userId = some x.id) :=
  patchGroups_unresolved_emails_dropped wDb (some wDesk) wGid wAddBody
    [{ email := "a@x.com" }, { email := "x@x.com" }] wGroup rfl (by decide)

/-- C9: groups.memberships returns the group's membership rows ordered by
creation time descending (newest first) for every query input; every returned
membership's required user join resolves, and when a nonempty query string is
given the joined user's name case-insensitively contains it, so a membership
whose required user join fails to match is excluded. -/
theorem groupsMemberships_sorted_filtered (pol : Policy) (db : DB)
    (gid : String) (query : Option String) (offset limit : Nat) (g : Group)
    (hg : Group.findByPk db gid = some g)
    (hp : pol .read g.id = true) :
    ∃ resp,
      groupsMemberships pol db gid query offset limit = .ok (db, resp) ∧
      resp.groupMemberships.Pairwise (fun a b => b.createdAt ≤ a.createdAt) ∧
      ∀ m ∈ resp.groupMemberships, m.groupId = gid ∧
        ∃ u, User.findByPk db m.userId = some u ∧
          ∀ q, query = some q → q.isEmpty = false → ilike q u.name = true := by
  have htrans : ∀ x y z : GroupUser × User,
      decide (y.1.createdAt ≤ x.1.createdAt) = true →
      decide (z.1.createdAt ≤ y.1.createdAt) = true →
      decide (z.1.createdAt ≤ x.1.createdAt) = true := by
    intro x y z h1 h2
    exact decide_eq_true (Nat.le_trans (of_decide_eq_true h2) (of_decide_eq_true h1))
  have htot : ∀ x y : GroupUser × User,
      decide (y.1.createdAt ≤ x.1.createdAt) = true ∨
      decide (x.1.createdAt ≤ y.1.createdAt) = true := by
    intro x y
    exact (Nat.le_total y.1.createdAt x.1.createdAt).imp decide_eq_true decide_eq_true
  match query with
  | none =>
    simp only [groupsMemberships, hg]
    rw [if_pos hp]
    refine ⟨_, rfl, ?_, ?_⟩
    · apply List.pairwise_map.mpr
      apply List.Pairwise.imp (fun hab => of_decide_eq_true hab)
      exact (pairwise_sortByLe _ htrans htot _).sublist
        ((List.take_sublist _ _).trans (List.drop_sublist _ _))
    · intro m hm
      obtain ⟨x, hx, hxm⟩ := List.mem_map.mp hm
      have hxj := (mem_sortByLe _ _ _).mp
        (((List.take_sublist _ _).trans (List.drop_sublist _ _)).subset hx)
      obtain ⟨m0, hm0, hf⟩ := List.mem_filterMap.mp hxj
      split at hf
      · exact absurd hf (by simp)
      · rename_i u hlu
        have hxval : (m0, u) = x := by simpa using hf
        subst hxval
        subst hxm
        have hmg := (List.mem_filter.mp hm0).2
        refine ⟨beq_iff_eq.mp hmg, u, hlu, ?_⟩
        intro q' hq'
        exact absurd hq' (by simp)
  | some q =>
    match hqe : q.isEmpty with
    | true =>
      simp only [groupsMemberships, hg, hqe]
      rw [if_pos hp]
      refine ⟨_, rfl, ?_, ?_⟩
      · apply List.pairwise_map.mpr
        apply List.Pairwise.imp (fun hab => of_decide_eq_true hab)
        exact (pairwise_sortByLe _ htrans htot _).sublist
          ((List.take_sublist _ _).trans (List.drop_sublist _ _))
      · intro m hm
        obtain ⟨x, hx, hxm⟩ := List.mem_map.mp hm
        have hxj := (mem_sortByLe _ _ _).mp
          (((List.take_sublist _ _).trans (List.drop_sublist _ _)).subset hx)
        obtain ⟨m0, hm0, hf⟩ := List.mem_filterMap.mp hxj
        split at hf
        · exact absurd hf (by simp)
        · rename_i u hlu
          have hxval : (m0, u) = x := by simpa using hf
          subst hxval
          subst hxm
          have hmg := (List.mem_filter.mp hm0).2
          refine ⟨beq_iff_eq.mp hmg, u, hlu, ?_⟩
          intro q' hq' hne
          injection hq' with hqq
          subst hqq
          simp [hqe] at hne
    | false =>
      simp only [groupsMemberships, hg, hqe, Bool.false_eq_true, if_false]
      rw [if_pos hp]
      refine ⟨_, rfl, ?_, ?_⟩
      · apply List.pairwise_map.mpr
        apply List.Pairwise.imp (fun hab => of_decide_eq_true hab)
        exact (pairwise_sortByLe _ htrans htot _).sublist
          ((List.take_sublist _ _).trans (List.drop_sublist _ _))
      · intro m hm
        obtain ⟨x, hx, hxm⟩ := List.mem_map.mp hm
        have hxj := (mem_sortByLe _ _ _).mp
          (((List.take_sublist _ _).trans (List.drop_sublist _ _)).subset hx)
        obtain ⟨m0, hm0, hf⟩ := List.mem_filterMap.mp hxj
        split at hf
        · exact absurd hf (by simp)
        · rename_i u hlu
          split at hf
          · rename_i hil
            have hxval : (m0, u) = x := by simpa using hf
            subst hxval
            subst hxm
            have hmg := (List.mem_filter.mp hm0).2
            refine ⟨beq_iff_eq.mp hmg, u, hlu, ?_⟩
            intro q' hq' hne
            injection hq' with hqq
            subst hqq
            exact hil
          · exact absurd hf (by simp)

/-- Witness for C9 at the concrete store with two memberships, of which only
the membership of the user named Janet matches the query jan. -/
theorem groupsMemberships_sorted_filtered_witness :
    ∃ resp,
      groupsMemberships wPol wDbMem wGid (some wQuery) 0 25 = .ok (wDbMem, resp) ∧
      resp.groupMemberships.Pairwise (fun a b => b.createdAt ≤ a.createdAt) ∧
      ∀ m ∈ resp.groupMemberships, m.groupId = wGid ∧
        ∃ u, User.findByPk wDbMem m.userId = some u ∧
          ∀ q, (some wQuery : Option String) = some q → q.isEmpty = false →
            ilike q u.name = true :=
  groupsMemberships_sorted_filtered wPol wDbMem wGid (some wQuery) 0 25 wGroup
    (by decide) (by decide)

theorem filter_flatten_chunks_le (gs : List Group) (f : Group → List GroupUser)
    (N : Nat) (g : Group)
    (hchunk : ∀ g' ∈ gs, ∀ m ∈ f g', m.groupId = g'.id)
    (hlen : ∀ g' ∈ gs, (f g').length ≤ N)
    (hnd : (gs.map (fun x => x.id)).Nodup) (hmem : g ∈ gs) :
    (((gs.map f).flatten).filter (fun m => m.groupId == g.id)).length ≤ N := by
  induction gs with
  | nil => simp at hmem
  | cons a as ih =>
    simp only [List.map_cons, List.flatten_cons, List.filter_append,
      List.length_append]
    rw [List.map_cons, List.nodup_cons] at hnd
    obtain ⟨hna, hnd'⟩ := hnd
    rcases List.mem_cons.mp hmem with hga | hgs
    · subst hga
      have htail : ((as.map f).flatten).filter (fun m => m.groupId == g.id) = [] := by
        rw [List.filter_eq_nil_iff]
        intro m hmm
        obtain ⟨l', hl', hml'⟩ := List.mem_flatten.mp hmm
        obtain ⟨g', hg', hfg⟩ := List.mem_map.mp hl'
        subst hfg
        have hmg := hchunk g' (List.mem_cons_of_mem g hg') m hml'
        rw [hmg]
        intro hcon
        exact hna (beq_iff_eq.mp hcon ▸ List.mem_map.mpr ⟨g', hg', rfl⟩)
      rw [htail]
      simp only [List.length_nil, Nat.add_zero]
      exact Nat.le_trans (List.length_filter_le _ _) (hlen g (List.mem_cons_self g as))
    · have hhead : (f a).filter (fun m => m.groupId == g.id) = [] := by
        rw [List.filter_eq_nil_iff]
        intro m hmm
        have hmg := hchunk a (List.mem_cons_self a as) m hmm
        rw [hmg]
        intro hcon
        exact hna (beq_iff_eq.mp hcon ▸ List.mem_map.mpr ⟨g, hgs, rfl⟩)
      rw [hhead]
      simp only [List.length_nil, Nat.zero_add]
      exact ih (fun g' hg' => hchunk g' (List.mem_cons_of_mem a hg'))
        (fun g' hg' => hlen g' (List.mem_cons_of_mem a hg')) hnd' hgs

theorem filter_flatten_chunks_eq (gs : List Group) (f : Group → List GroupUser)
    (g : Group)
    (hchunk : ∀ g' ∈ gs, ∀ m ∈ f g', m.groupId = g'.id)
    (hnd : (gs.map (fun x => x.id)).Nodup) (hmem : g ∈ gs) :
    ((gs.map f).flatten).filter (fun m => m.groupId == g.id) = f g := by
  induction gs with
  | nil => simp at hmem
  | cons a as ih =>
    simp only [List.map_cons, List.flatten_cons, List.filter_append]
    rw [List.map_cons, List.nodup_cons] at hnd
    obtain ⟨hna, hnd'⟩ := hnd
    rcases List.mem_cons.mp hmem with hga | hgs
    · subst hga
      have htail : ((as.map f).flatten).filter (fun m => m.groupId == g.id) = [] := by
        rw [List.filter_eq_nil_iff]
        intro m hmm
        obtain ⟨l', hl', hml'⟩ := List.mem_flatten.mp hmm
        obtain ⟨g', hg', hfg⟩ := List.mem_map.mp hl'
        subst hfg
        have hmg := hchunk g' (List.mem_cons_of_mem g hg') m hml'
        rw [hmg]
        intro hcon
        exact hna (beq_iff_eq.mp hcon ▸ List.mem_map.mpr ⟨g', hg', rfl⟩)
      have hhead : (f g).filter (fun m => m.groupId == g.id) = f g := by
        apply filter_id_of_all_pos
        intro m hmm
        rw [hchunk g (List.mem_cons_self g as) m hmm]
        simp
      rw [htail, hhead, List.append_nil]
    · have hhead : (f a).filter (fun m => m.groupId == g.id) = [] := by
        rw [List.filter_eq_nil_iff]
        intro m hmm
        rw [hchunk a (List.mem_cons_self a as) m hmm]
        intro hcon
        exact hna (beq_iff_eq.mp hcon ▸ List.mem_map.mpr ⟨g, hgs, rfl⟩)
      rw [hhead, List.nil_append]
      exact ih (fun g' hg' => hchunk g' (List.mem_cons_of_mem a hg')) hnd' hgs

/-- C8: groups.list returns only groups of the acting user's team, further
restricted by the optional exact-name clause and the optional member scope;
every returned membership has a resolved user and belongs to a returned
group, per returned group at most MAX_AVATAR_DISPLAY memberships are
returned, and the memberships returned for each returned group are exactly
the group's membership rows with a resolved user, truncated to
MAX_AVATAR_DISPLAY entries. -/
theorem groupsList_team_scope_and_avatar_cap (db : DB) (actor : User)
    (sort direction : String) (offset limit : Nat) (userId name : Option String)
    (hnd : (db.groups.map (fun x => x.id)).Nodup) :
    (∀ g ∈ ((groupsList db actor sort direction offset limit userId name).2).groups,
      g.teamId = actor.teamId ∧
      (∀ n, name = some n → n.isEmpty = false → g.name = n) ∧
      (∀ uid, userId = some uid →
        ∃ m ∈ db.groupUsers, m.groupId = g.id ∧ m.userId = uid)) ∧
    (∀ m ∈ ((groupsList db actor sort direction offset limit userId
        name).2).groupMemberships,
      (User.findByPk db m.userId).isSome = true ∧
      ∃ g ∈ ((groupsList db actor sort direction offset limit userId
        name).2).groups, m.groupId = g.id) ∧
    (∀ g ∈ ((groupsList db actor sort direction offset limit userId
        name).2).groups,
      (((groupsList db actor sort direction offset limit userId
        name).2).groupMemberships.filter
          (fun m => m.groupId == g.id)).length ≤ MAX_AVATAR_DISPLAY) ∧
    (∀ g ∈ ((groupsList db actor sort direction offset limit userId
        name).2).groups,
      ((groupsList db actor sort direction offset limit userId
        name).2).groupMemberships.filter (fun m => m.groupId == g.id) =
        ((Group.groupMemberships db g).filter
          (fun m => (GroupUser.user db m).isSome)).take MAX_AVATAR_DISPLAY) := by
  simp only [groupsList]
  refine ⟨?_, ?_, ?_, ?_⟩
  · intro g hgp
    have hgs : g ∈ sortByLe (groupLe sort direction) _ :=
      ((List.take_sublist _ _).trans (List.drop_sublist _ _)).subset hgp
    have hgf := (mem_sortByLe _ _ _).mp hgs
    have hcond := (List.mem_filter.mp hgf).2
    rw [Bool.and_eq_true] at hcond
    obtain ⟨hwm, hfm⟩ := hcond
    rw [Bool.and_eq_true] at hwm
    obtain ⟨hteam, hname⟩ := hwm
    refine ⟨beq_iff_eq.mp hteam, ?_, ?_⟩
    · intro n hn hne
      subst hn
      have hname' : (if n.isEmpty = true then true else (g.name == n)) = true :=
        hname
      rw [hne] at hname'
      rw [if_neg Bool.false_ne_true] at hname'
      exact beq_iff_eq.mp hname'
    · intro uid huid
      subst huid
      have hfm' : (db.groupUsers.any
          (fun m => m.groupId == g.id && m.userId == uid)) = true := hfm
      rw [List.any_eq_true] at hfm'
      obtain ⟨m, hm, hpm⟩ := hfm'
      rw [Bool.and_eq_true] at hpm
      exact ⟨m, hm, beq_iff_eq.mp hpm.1, beq_iff_eq.mp hpm.2⟩
  · intro m hm
    obtain ⟨l', hl', hml⟩ := List.mem_flatten.mp hm
    obtain ⟨g, hgp, hfg⟩ := List.mem_map.mp hl'
    subst hfg
    have hmf := List.mem_filter.mp ((List.take_sublist _ _).subset hml)
    have hmm : m ∈ db.groupUsers.filter (fun x => x.groupId == g.id) := hmf.1
    exact ⟨hmf.2, g, hgp, beq_iff_eq.mp (List.mem_filter.mp hmm).2⟩
  · intro g hgp
    refine filter_flatten_chunks_le _ _ _ g ?_ ?_ ?_ hgp
    · intro g' _ m hmm
      have h1 : m ∈ db.groupUsers.filter (fun x => x.groupId == g'.id) :=
        (List.mem_filter.mp ((List.take_sublist _ _).subset hmm)).1
      exact beq_iff_eq.mp (List.mem_filter.mp h1).2
    · intro g' _
      exact List.length_take_le _ _
    · exact ((List.Perm.nodup_iff ((perm_sortByLe _ _).map _)).mpr
        (hnd.sublist ((List.filter_sublist _).map _))).sublist
        (((List.take_sublist _ _).trans (List.drop_sublist _ _)).map _)
  · intro g hgp
    refine filter_flatten_chunks_eq _ _ g ?_ ?_ hgp
    · intro g' _ m hmm
      have h1 : m ∈ db.groupUsers.filter (fun x => x.groupId == g'.id) :=
        (List.mem_filter.mp ((List.take_sublist _ _).subset hmm)).1
      exact beq_iff_eq.mp (List.mem_filter.mp h1).2
    · exact ((List.Perm.nodup_iff ((perm_sortByLe _ _).map _)).mpr
        (hnd.sublist ((List.filter_sublist _).map _))).sublist
        (((List.take_sublist _ _).trans (List.drop_sublist _ _)).map _)

/-- Witness for C8 at the concrete store with one group and two
memberships. -/
theorem groupsList_team_scope_and_avatar_cap_witness :
    (∀ g ∈ ((groupsList wDbMem wAlice wSort wDir 0 25 none none).2).groups,
      g.teamId = wAlice.teamId ∧
      (∀ n, (none : Option String) = some n → n.isEmpty = false → g.name = n) ∧
      (∀ uid, (none : Option String) = some uid →
        ∃ m ∈ wDbMem.groupUsers, m.groupId = g.id ∧ m.userId = uid)) ∧
    (∀ m ∈ ((groupsList wDbMem wAlice wSort wDir 0 25 none
        none).2).groupMemberships,
      (User.findByPk wDbMem m.userId).isSome = true ∧
      ∃ g ∈ ((groupsList wDbMem wAlice wSort wDir 0 25 none none).2).groups,
        m.groupId = g.id) ∧
    (∀ g ∈ ((groupsList wDbMem wAlice wSort wDir 0 25 none none).2).groups,
      (((groupsList wDbMem wAlice wSort wDir 0 25 none
        none).2).groupMemberships.filter
          (fun m => m.groupId == g.id)).length ≤ MAX_AVATAR_DISPLAY) ∧
    (∀ g ∈ ((groupsList wDbMem wAlice wSort wDir 0 25 none none).2).groups,
      ((groupsList wDbMem wAlice wSort wDir 0 25 none
        none).2).groupMemberships.filter (fun m => m.groupId == g.id) =
        ((Group.groupMemberships wDbMem g).filter
          (fun m => (GroupUser.user wDbMem m).isSome)).take MAX_AVATAR_DISPLAY) :=
  groupsList_team_scope_and_avatar_cap wDbMem wAlice wSort wDir 0 25 none none
    (by decide)

end GroupsAPI
